import Mathlib

/-!
Verification of the datafact-service backend (Go) against its
natural-language specification.

Strings from the Go code are modelled as `List Char`; the Go standard
library functions the handlers use (`strings.TrimSpace`, `strings.HasPrefix`,
`strings.TrimPrefix`, `strings.TrimSuffix`, `strings.Contains`,
`strings.ReplaceAll`, `strings.Split`, `strings.Join`, `strconv.Itoa`) are
given executable models below.  External effects (the Gemini HTTP call,
`json.Unmarshal`, the Sheets append) are oracles supplied as parameters, so
every in-repository computation is translated and executable.
-/

set_option maxRecDepth 8000

namespace DataFact

/-- Convert a Lean string literal to the `List Char` string model. -/
def str (s : String) : List Char := s.data

/-- Whitespace test used by `strings.TrimSpace` (the ASCII/Latin-1 part of
Go's `unicode.IsSpace`, which is all the handlers rely on). -/
def goIsSpace (c : Char) : Bool :=
  c = ' ' || c = '\t' || c = '\n' || c = '\x0b' || c = '\x0c' || c = '\r'

/-- Model of Go `strings.TrimSpace`. -/
def trimSpaceL (s : List Char) : List Char :=
  ((s.dropWhile goIsSpace).reverse.dropWhile goIsSpace).reverse

/-- Model of Go `strings.HasPrefix s pat`. -/
def goHasPre : List Char → List Char → Bool
  | _, [] => true
  | [], _ :: _ => false
  | c :: cs, p :: ps => c = p && goHasPre cs ps

/-- Model of Go `strings.TrimPrefix s pat`. -/
def goTrimPre (s pat : List Char) : List Char :=
  if goHasPre s pat then s.drop pat.length else s

/-- Model of Go `strings.HasSuffix s pat`. -/
def goHasSuf (s pat : List Char) : Bool :=
  goHasPre s.reverse pat.reverse

/-- Model of Go `strings.TrimSuffix s pat`. -/
def goTrimSuf (s pat : List Char) : List Char :=
  if goHasSuf s pat then s.take (s.length - pat.length) else s

/-- Model of Go `strings.Contains s sub`. -/
def containsSub : List Char → List Char → Bool
  | [], sub => sub.isEmpty
  | c :: rest, sub => goHasPre (c :: rest) sub || containsSub rest sub

/-- Fuel-driven worker for `strings.ReplaceAll` (left-to-right,
non-overlapping).  The fuel is at least the length of the subject string,
and one character is consumed per step, so the fuel never runs out on the
calls made by `replaceAllL`. -/
def replaceAllGo (pat rep : List Char) : Nat → List Char → List Char
  | 0, l => l
  | _ + 1, [] => []
  | fuel + 1, c :: rest =>
    if goHasPre (c :: rest) pat then
      rep ++ replaceAllGo pat rep fuel (List.drop (pat.length - 1) rest)
    else
      c :: replaceAllGo pat rep fuel rest

/-- Model of Go `strings.ReplaceAll s pat rep` for a non-empty pattern (the
only way the handlers call it; Go's empty-pattern behaviour is not used). -/
def replaceAllL (s pat rep : List Char) : List Char :=
  match pat with
  | [] => s
  | _ :: _ => replaceAllGo pat rep s.length s

/-- Model of Go `strings.Split s [d]` for a single-character separator. -/
def splitOnChar (d : Char) : List Char → List (List Char)
  | [] => [[]]
  | c :: rest =>
    if c = d then [] :: splitOnChar d rest
    else
      match splitOnChar d rest with
      | [] => [[c]]
      | h :: t => (c :: h) :: t

/-- Model of Go `strings.Join parts [d]` for a single-character separator. -/
def joinWith (d : Char) : List (List Char) → List Char
  | [] => []
  | [x] => x
  | x :: y :: t => x ++ d :: joinWith d (y :: t)

/-- Fuel-driven decimal-digit expansion, as in Go `strconv.Itoa` for
non-negative inputs. -/
def digitsGo : Nat → Nat → List Char
  | 0, _ => []
  | fuel + 1, n =>
    if n < 10 then [Nat.digitChar n]
    else digitsGo fuel (n / 10) ++ [Nat.digitChar (n % 10)]

/-- Model of Go `strconv.Itoa n` for naturals. -/
def natStr (n : Nat) : List Char := digitsGo (n + 1) n

/-- Lookup in an assignment list where a later assignment to the same key
shadows an earlier one — the observable behaviour of a Go `map` written by a
sequence of `m[k] = v` statements. -/
def lookupLast {β : Type} (m : List (List Char × β)) (k : List Char) : Option β :=
  ((m.filter (fun p => p.1 = k)).getLast?).map Prod.snd

-- Sanity checks on the string model (concrete evaluations).
example : trimSpaceL (str "  a b ") = str "a b" := by decide
example : goHasPre (str "Bearer x") (str "Bearer ") = true := by decide
example : goTrimPre (str "Bearer x") (str "Bearer ") = str "x" := by decide
example : containsSub (str "abcd") (str "bc") = true := by decide
example : replaceAllL (str "xAyAz") (str "A") (str "BB") = str "xBByBBz" := by decide
example : splitOnChar ';' (str "a;b;") = [str "a", str "b", []] := by decide
example : joinWith ',' [str "0", str "1", str "2"] = str "0,1,2" := by decide
example : natStr 503 = str "503" := by decide
example : lookupLast [(str "a", (1 : Int)), (str "a", 2)] (str "a") = some 2 := by decide

/-! ## Authorization (`api/v1/utils.go`, `mustAuthorize`) -/

inductive AuthResult
  | ok
  | err (msg : List Char)
deriving DecidableEq

/-- The literal header scheme used by `mustAuthorize`. -/
def bearerStr : List Char := str "Bearer "

/-- Model of `mustAuthorize` from `api/v1/utils.go`.  `expected` is the value
of the `DATAFACT_API_KEY` environment variable and `auth` the incoming
`Authorization` header (environment and request are the two inputs the Go
function reads). -/
def mustAuthorize (expected auth : List Char) : AuthResult :=
  if expected = [] then .err (str "server misconfigured: missing DATAFACT_API_KEY")
  else if auth = [] then .err (str "missing Authorization header")
  else if goHasPre auth bearerStr = false then .err (str "invalid Authorization format")
  else if trimSpaceL (goTrimPre auth bearerStr) ≠ expected then .err (str "invalid API key")
  else .ok

theorem goHasPre_iff_append (pat : List Char) :
    ∀ s, goHasPre s pat = true ↔ ∃ t, s = pat ++ t := by
  induction pat with
  | nil =>
    intro s
    simp [goHasPre]
  | cons p ps ih =>
    intro s
    cases s with
    | nil =>
      simp [goHasPre]
    | cons c cs =>
      simp only [goHasPre, Bool.and_eq_true, decide_eq_true_eq, ih cs, List.cons_append]
      constructor
      · rintro ⟨hc, t, ht⟩
        exact ⟨t, by simp [hc, ht]⟩
      · rintro ⟨t, ht⟩
        rw [List.cons_eq_cons] at ht
        exact ⟨ht.1, t, ht.2⟩

theorem goTrimPre_append (pat t : List Char) :
    goTrimPre (pat ++ t) pat = t := by
  have h : goHasPre (pat ++ t) pat = true :=
    (goHasPre_iff_append pat (pat ++ t)).mpr ⟨t, rfl⟩
  simp [goTrimPre, h, List.drop_left]

/-- Claim C10: authorization fails closed — with an unset or empty
`DATAFACT_API_KEY` every request is rejected (so endpoints answer 401), and
with the secret set, a request is authorized if and only if its
`Authorization` header is `"Bearer "` followed by text that, after trimming
surrounding whitespace, is exactly the secret. -/
theorem c10_mustAuthorize_fails_closed (expected auth : List Char) :
    (expected = [] →
      mustAuthorize expected auth =
        AuthResult.err (str "server misconfigured: missing DATAFACT_API_KEY")) ∧
    (expected ≠ [] →
      (mustAuthorize expected auth = AuthResult.ok ↔
        ∃ rest, auth = bearerStr ++ rest ∧ trimSpaceL rest = expected)) := by
  constructor
  · intro h
    simp [mustAuthorize, h]
  · intro hne
    constructor
    · intro hok
      rw [mustAuthorize] at hok
      split_ifs at hok with h1 h2 h3 h4
      have hpre : goHasPre auth bearerStr = true := by
        cases hgp : goHasPre auth bearerStr
        · exact absurd hgp h3
        · rfl
      obtain ⟨rest, hrest⟩ := (goHasPre_iff_append bearerStr auth).mp hpre
      refine ⟨rest, hrest, ?_⟩
      have htok := not_ne_iff.mp h4
      rw [hrest, goTrimPre_append] at htok
      exact htok
    · rintro ⟨rest, hrest, htrim⟩
      have hauth : auth ≠ [] := by
        rw [hrest]
        simp [bearerStr, str]
      have hpre : goHasPre auth bearerStr = true :=
        (goHasPre_iff_append bearerStr auth).mpr ⟨rest, hrest⟩
      have htok : trimSpaceL (goTrimPre auth bearerStr) = expected := by
        rw [hrest, goTrimPre_append]
        exact htrim
      simp [mustAuthorize, hne, hauth, hpre, htok]

/-- Witness for C10 at concrete inputs: the empty secret rejects a
well-formed request, and the secret `"sec"` accepts
`"Bearer  sec "` (extra surrounding whitespace is trimmed). -/
theorem c10_witness :
    mustAuthorize [] (str "Bearer x") =
      AuthResult.err (str "server misconfigured: missing DATAFACT_API_KEY") ∧
    mustAuthorize (str "sec") (str "Bearer  sec ") = AuthResult.ok :=
  ⟨(c10_mustAuthorize_fails_closed [] (str "Bearer x")).1 rfl,
   ((c10_mustAuthorize_fails_closed (str "sec") (str "Bearer  sec ")).2 (by decide)).mpr
     ⟨str " sec ", by constructor <;> decide⟩⟩

/-! ## Upstream text-generation client
(`api/v1/datafact-factory.go`, `callGemini`) -/

/-- One candidate of the decoded Gemini response
(`GeminiResponse.Candidates[i]`): its `Content.Parts` texts. -/
structure Candidate where
  parts : List (List Char)
deriving DecidableEq

/-- Outcome of `json.NewDecoder(resp.Body).Decode(&gResp)` on a 200 body. -/
inductive GemBody
  | undecodable (msg : List Char)
  | decoded (candidates : List Candidate)
deriving DecidableEq

/-- Outcome of one `fastClient.Do(req)`: either a transport-level error or
an HTTP response with its status, raw body text, and decoded form. -/
inductive Attempt
  | netErr (msg : List Char)
  | httpResp (status : Nat) (rawBody : List Char) (body : GemBody)
deriving DecidableEq

inductive GemOut
  | ok (text : List Char)
  | err (msg : List Char)
deriving DecidableEq

/-- The `fmt.Errorf("gemini api error %d: %s", ...)` message. -/
def geminiHTTPErrMsg (status : Nat) (rawBody : List Char) : List Char :=
  str "gemini api error " ++ natStr status ++ str ": " ++ rawBody

/-- Model of `callGemini`'s response handling: the function performs a
single `fastClient.Do` whose outcome is `a`.  A transport error is returned
as-is; any non-200 status becomes the formatted terminal error; on 200 the
body is decoded and the first candidate's first part is returned, with
`"no content generated"` when no candidate/part exists. -/
def callGemini (a : Attempt) : GemOut :=
  match a with
  | .netErr m => .err m
  | .httpResp status rawBody body =>
    if status ≠ 200 then .err (geminiHTTPErrMsg status rawBody)
    else
      match body with
      | .undecodable m => .err m
      | .decoded cands =>
        match cands with
        | [] => .err (str "no content generated")
        | c :: _ =>
          match c.parts with
          | [] => .err (str "no content generated")
          | p :: _ => .ok p

/-- `callGemini` together with the number of upstream attempts it performs.
The oracle gives the outcome the network would return to the n-th attempt;
the Go function issues exactly one `fastClient.Do`, so only `oracle 0` is
ever consulted and the attempt count is `1`. -/
def callGeminiAttempts (oracle : Nat → Attempt) : Nat × GemOut :=
  (1, callGemini (oracle 0))

/-- Upstream oracle of the C1 counterexample: three 503 responses followed
by a 200 carrying the text "hi". -/
def oracle503 : Nat → Attempt := fun n =>
  if n < 3 then Attempt.httpResp 503 (str "service unavailable") (GemBody.undecodable [])
  else Attempt.httpResp 200 [] (GemBody.decoded [⟨[str "hi"]⟩])

/-- Upstream oracle with a transport-level failure on the first attempt. -/
def oracleNetErr : Nat → Attempt := fun _ => Attempt.netErr (str "net down")

/-- Counterexample to claim C1: against three 503s followed by a 200 the
claim predicates success after exactly 4 attempts, but `callGemini` stops
after its single attempt with the 503 error — there is no retry loop. -/
theorem c1_counterexample :
    callGeminiAttempts oracle503 =
      (1, GemOut.err (geminiHTTPErrMsg 503 (str "service unavailable"))) ∧
    (1 : Nat) ≠ 4 := by
  constructor
  · rfl
  · decide

/-- Claim C1 (amended): `callGemini` performs exactly one upstream attempt,
determined solely by the first response: a transport-level failure is
returned immediately, and every non-200 status (including 429 and 5xx)
yields the terminal formatted error immediately — no retry, no backoff. -/
theorem c1_callGemini_single_attempt (oracle : Nat → Attempt) :
    (callGeminiAttempts oracle).1 = 1 ∧
    (callGeminiAttempts oracle).2 = callGemini (oracle 0) ∧
    (∀ m, oracle 0 = Attempt.netErr m →
      (callGeminiAttempts oracle).2 = GemOut.err m) ∧
    (∀ status rawBody body, oracle 0 = Attempt.httpResp status rawBody body →
      status ≠ 200 →
      (callGeminiAttempts oracle).2 = GemOut.err (geminiHTTPErrMsg status rawBody)) := by
  refine ⟨rfl, rfl, ?_, ?_⟩
  · intro m hm
    simp [callGeminiAttempts, hm, callGemini]
  · intro status rawBody body hb hst
    simp [callGeminiAttempts, hb, callGemini, hst]

/-- Witness for the amended C1: both terminal branches at concrete
oracles. -/
theorem c1_witness :
    (callGeminiAttempts oracleNetErr).2 = GemOut.err (str "net down") ∧
    (callGeminiAttempts oracle503).2 =
      GemOut.err (geminiHTTPErrMsg 503 (str "service unavailable")) :=
  ⟨(c1_callGemini_single_attempt oracleNetErr).2.2.1 (str "net down") rfl,
   (c1_callGemini_single_attempt oracle503).2.2.2 503 (str "service unavailable")
     (GemBody.undecodable []) rfl (by decide)⟩

/-! ## Factory request, validation, and per-task prompt construction
(`api/v1/datafact-factory.go`, `FactoryRequest` / `DataFactFactoryHandler`) -/

structure FactoryRequest where
  systemPromptFactory : List (List Char)
  userPromptFactory : List Char
  userPromptParser : List Char
  systemPromptParser : List Char
  formText : List Char
  geminiAPIKey : List Char
  spreadsheetID : List Char
  model : List Char
deriving DecidableEq

inductive ValidationOutcome
  | badRequest (msg : List Char)
  | accepted (effectiveModel : List Char)
deriving DecidableEq

/-- Model of the handler's input validation and model defaulting: a 400 is
produced exactly when `spreadsheet_id` or `gemini_api_key` is empty, and
an absent `model` is replaced by `"gemini-2.5-flash"`. -/
def validateFactory (req : FactoryRequest) : ValidationOutcome :=
  if req.spreadsheetID = [] ∨ req.geminiAPIKey = [] then
    .badRequest (str "spreadsheet_id and gemini_api_key are required")
  else
    .accepted (if req.model = [] then str "gemini-2.5-flash" else req.model)

/-- The model string in effect after defaulting (`req.Model` at the time the
orchestration loop runs). -/
def effModel (req : FactoryRequest) : List Char :=
  if req.model = [] then str "gemini-2.5-flash" else req.model

/-- The literal placeholder `strings.ReplaceAll` substitutes in the
factory user prompt ("\x7b\x7b $json.form \x7d\x7d"). -/
def formPH : List Char := str "\x7b\x7b $json.form \x7d\x7d"

/-- The literal n8n placeholder checked in the parser user prompt
("\x7b\x7b $json.choices[0].message.content \x7d\x7d"). -/
def n8nPH : List Char := str "\x7b\x7b $json.choices[0].message.content \x7d\x7d"

/-- Phase 1 prompt: the factory user prompt with the form placeholder
replaced by `form_text` when `form_text` is non-empty. -/
def taskUserPrompt (req : FactoryRequest) : List Char :=
  if req.formText ≠ [] then replaceAllL req.userPromptFactory formPH req.formText
  else req.userPromptFactory

/-- Phase 2 prompt: if the parser user prompt contains the n8n placeholder,
every occurrence is replaced by the Stage-A output; otherwise the Stage-A
output is appended after a literal "\n\nInput Text:\n" separator. -/
def buildParserPrompt (template genResult : List Char) : List Char :=
  if containsSub template n8nPH then replaceAllL template n8nPH genResult
  else template ++ str "\n\nInput Text:\n" ++ genResult

/-- The four arguments of one `callGemini(model, apiKey, systemPrompt,
userPrompt)` call site. -/
structure GeminiCallArgs where
  model : List Char
  apiKey : List Char
  systemPrompt : List Char
  userPrompt : List Char
deriving DecidableEq

/-- Arguments of the Stage-A (generate) call for the task with persona
`persona`: `callGemini(req.Model, req.GeminiAPIKey, persona, taskUserPrompt)`. -/
def genCallArgs (req : FactoryRequest) (persona : List Char) : GeminiCallArgs :=
  ⟨effModel req, req.geminiAPIKey, persona, taskUserPrompt req⟩

/-- Arguments of the Stage-B (parser) call given the Stage-A output:
`callGemini(req.Model, req.GeminiAPIKey, req.SystemPromptParser, parserUserPrompt)`. -/
def parseCallArgs (req : FactoryRequest) (genResult : List Char) : GeminiCallArgs :=
  ⟨effModel req, req.geminiAPIKey, req.systemPromptParser,
    buildParserPrompt req.userPromptParser genResult⟩

/-- Modelled from the spec (§4.2 API-Key Rotation Pool), for comparison
with the code: the pool the spec describes is built by splitting the
credential string on `;`, trimming whitespace, and discarding empty
entries.  No such construction exists anywhere in the source. -/
def specPoolKeys (raw : List Char) : List (List Char) :=
  ((splitOnChar ';' raw).map trimSpaceL).filter (fun k => k ≠ [])

/-- A request carrying a semicolon-delimited credential string, used to
separate the spec's pool behaviour from the code's. -/
def reqPool : FactoryRequest :=
  { systemPromptFactory := [str "p"]
    userPromptFactory := str "u"
    userPromptParser := str "q"
    systemPromptParser := str "s"
    formText := []
    geminiAPIKey := str "alpha;beta"
    spreadsheetID := str "sheet"
    model := str "m" }

/-- Counterexample to claim C3: for the credential string `"alpha;beta"`
the spec's pool dispenses `"alpha"` then `"beta"`, but the code passes the
undivided string `"alpha;beta"` — which is not even a member of the spec's
pool — as the key of the upstream call. -/
theorem c3_counterexample :
    specPoolKeys (str "alpha;beta") = [str "alpha", str "beta"] ∧
    (genCallArgs reqPool (str "p")).apiKey = str "alpha;beta" ∧
    (genCallArgs reqPool (str "p")).apiKey ∉ specPoolKeys (str "alpha;beta") := by
  refine ⟨by decide, rfl, by decide⟩

/-- Claim C3 (amended): there is no API-key pool — the raw `gemini_api_key`
string is passed verbatim as the key of every Stage-A and Stage-B upstream
call; no splitting on `;`, trimming, or round-robin rotation occurs. -/
theorem c3_no_key_pool (req : FactoryRequest) (persona genResult : List Char) :
    (genCallArgs req persona).apiKey = req.geminiAPIKey ∧
    (parseCallArgs req genResult).apiKey = req.geminiAPIKey :=
  ⟨rfl, rfl⟩

/-- A request with empty persona-prompt list and empty prompt fields but
populated `spreadsheet_id` and `gemini_api_key`. -/
def reqNoPersona : FactoryRequest :=
  { systemPromptFactory := []
    userPromptFactory := []
    userPromptParser := []
    systemPromptParser := []
    formText := []
    geminiAPIKey := str "k"
    spreadsheetID := str "s"
    model := [] }

/-- Counterexample to claim C4: a request whose persona-prompt list and all
prompt fields are empty is accepted (no 400) as long as `spreadsheet_id`
and `gemini_api_key` are non-empty — the handler never validates the
prompts. -/
theorem c4_counterexample :
    reqNoPersona.systemPromptFactory = [] ∧
    reqNoPersona.userPromptFactory = [] ∧
    validateFactory reqNoPersona = ValidationOutcome.accepted (str "gemini-2.5-flash") :=
  ⟨rfl, rfl, rfl⟩

/-- Claim C4 (amended): the handler returns 400 exactly when
`spreadsheet_id` or `gemini_api_key` is empty (the only required fields);
empty persona-prompt lists and empty prompt fields are not rejected, and
an absent `model` is defaulted to `"gemini-2.5-flash"`. -/
theorem c4_validation (req : FactoryRequest) :
    ((∃ m, validateFactory req = ValidationOutcome.accepted m) ↔
      (req.spreadsheetID ≠ [] ∧ req.geminiAPIKey ≠ [])) ∧
    (req.spreadsheetID ≠ [] → req.geminiAPIKey ≠ [] → req.model = [] →
      validateFactory req = ValidationOutcome.accepted (str "gemini-2.5-flash")) := by
  constructor
  · constructor
    · rintro ⟨m, hm⟩
      by_cases hs : req.spreadsheetID = [] ∨ req.geminiAPIKey = []
      · simp [validateFactory, hs] at hm
      · push_neg at hs
        exact hs
    · intro h
      have hs : ¬(req.spreadsheetID = [] ∨ req.geminiAPIKey = []) := by
        push_neg
        exact h
      exact ⟨if req.model = [] then str "gemini-2.5-flash" else req.model,
        by simp [validateFactory, hs]⟩
  · intro h1 h2 hm
    have hs : ¬(req.spreadsheetID = [] ∨ req.geminiAPIKey = []) := by
      push_neg
      exact ⟨h1, h2⟩
    simp [validateFactory, hs, hm]

/-- Witness for the amended C4 at `reqNoPersona`. -/
theorem c4_witness :
    validateFactory reqNoPersona = ValidationOutcome.accepted (str "gemini-2.5-flash") :=
  (c4_validation reqNoPersona).2 (by decide) (by decide) rfl

/-- Modelled from the spec (§4.3 Stage B), for comparison with the code:
the prompt the spec describes — the trimmed Stage-A output newline-joined
with the trimmed parser user-prompt template, with no placeholder
substitution. -/
def specStageBPrompt (stageAOut template : List Char) : List Char :=
  trimSpaceL stageAOut ++ str "\n" ++ trimSpaceL template

/-- Counterexample to claim C5: with a parser template consisting of the
n8n placeholder and Stage-A output `"X"`, the code substitutes and sends
exactly `"X"`, while the spec's newline-joined concatenation keeps the
placeholder text — Stage B does perform placeholder substitution. -/
theorem c5_counterexample :
    buildParserPrompt n8nPH (str "X") = str "X" ∧
    specStageBPrompt (str "X") n8nPH ≠ str "X" := by
  constructor
  · decide
  · decide

/-- Claim C5 (amended): Stage B builds its user prompt from the parser
user-prompt template and the Stage-A output by placeholder substitution —
when the template contains the literal n8n placeholder every occurrence is
replaced by the Stage-A output, otherwise the Stage-A output is appended
after a literal "\n\nInput Text:\n" separator; no trimming is applied —
and the Stage-B call passes the parser system prompt with that text. -/
theorem c5_stageB_prompt (template genResult : List Char) :
    (containsSub template n8nPH = true →
      buildParserPrompt template genResult = replaceAllL template n8nPH genResult) ∧
    (containsSub template n8nPH = false →
      buildParserPrompt template genResult =
        template ++ str "\n\nInput Text:\n" ++ genResult) ∧
    ∀ req, (parseCallArgs req genResult).systemPrompt = req.systemPromptParser ∧
      (parseCallArgs req genResult).userPrompt =
        buildParserPrompt req.userPromptParser genResult := by
  refine ⟨?_, ?_, fun req => ⟨rfl, rfl⟩⟩
  · intro h
    simp [buildParserPrompt, h]
  · intro h
    simp [buildParserPrompt, h]

/-- Witness for the amended C5: both branches at concrete inputs. -/
theorem c5_witness :
    buildParserPrompt n8nPH (str "X") = replaceAllL n8nPH n8nPH (str "X") ∧
    buildParserPrompt (str "t") (str "X") = str "t" ++ str "\n\nInput Text:\n" ++ str "X" :=
  ⟨(c5_stageB_prompt n8nPH (str "X")).1 (by decide),
   (c5_stageB_prompt (str "t") (str "X")).2.1 (by decide)⟩

/-! ## Two-stage pipeline executor and bounded fan-out orchestrator
(`api/v1/datafact-factory.go`, goroutine body and aggregation of
`DataFactFactoryHandler`) -/

/-- Generic JSON value as decoded by `encoding/json` into `interface{}`
(numbers are modelled as integers — every number the handlers inspect is
used through an integral conversion). -/
inductive JVal
  | null
  | bool (b : Bool)
  | num (n : Int)
  | s (text : List Char)
  | arr (items : List JVal)

/-- Go type assertion `v.(float64)` followed by an integral use. -/
def JVal.asNum : JVal → Option Int
  | .num n => some n
  | _ => none

/-- Go type assertion `v.(string)`. -/
def JVal.asStr : JVal → Option (List Char)
  | .s t => some t
  | _ => none

/-- Go type assertion `v.([]interface\x7b\x7d)`. -/
def JVal.asArr : JVal → Option (List JVal)
  | .arr xs => some xs
  | _ => none

/-- Header map of the handler: for each header cell that is a string,
`headerMap[strings.TrimSpace(cell)] = column index` (a later duplicate
header shadows an earlier one, as in a Go map). -/
def buildHeaderMap (headers : List JVal) : List (List Char × Nat) :=
  headers.enum.foldl
    (fun m p =>
      match p.2.asStr with
      | some colStr => m ++ [(trimSpaceL colStr, p.1)]
      | none => m)
    []

/-- Model of `cleanMarkdownJSON`. -/
def cleanMarkdownJSON (raw : List Char) : List Char :=
  trimSpaceL (goTrimSuf (goTrimPre (goTrimPre (trimSpaceL raw) (str "```json")) (str "```")) (str "```"))

/-- Phase-4 row assembly: a row of `len(headers)` cells initialised to the
empty string, then each decoded JSON key (trimmed) that matches a header
lands its value in that header's column. -/
def buildRow (headers : List JVal) (dataMap : List (List Char × JVal)) : List JVal :=
  dataMap.foldl
    (fun row kv =>
      match lookupLast (buildHeaderMap headers) (trimSpaceL kv.1) with
      | some colIdx => row.set colIdx kv.2
      | none => row)
    (List.replicate headers.length (JVal.s []))

/-- Which pipeline stage a recorded error came from, mirroring the four
`fmt.Sprintf` tags `"Task %d Gen Error"`, `"Task %d Parse Error"`,
`"Task %d JSON Error"`, `"Task %d Sheet Write Error"`. -/
inductive Stage
  | genStage
  | parseStage
  | jsonStage
  | sheetStage
deriving DecidableEq

/-- One entry of the shared `resultDetails` list: the task index and stage
baked into the `fmt.Sprintf` format string, plus the wrapped error text. -/
structure ErrEntry where
  idx : Nat
  stage : Stage
  msg : List Char
deriving DecidableEq

/-- External calls a task can issue, in order: the Stage-A Gemini call, the
Stage-B Gemini call, the Sheets append. -/
inductive Event
  | genEv
  | parseEv
  | sheetEv
deriving DecidableEq

/-- The externally-determined outcomes one task can observe: the Stage-A
call result, the Stage-B call result as a function of the parser prompt
sent, the `json.Unmarshal` outcome on the cleaned text, and the Sheets
append outcome on the assembled row. -/
structure TaskEnv where
  gen : Except (List Char) (List Char)
  parse : List Char → Except (List Char) (List Char)
  jsonDecode : List Char → Except (List Char) (List (List Char × JVal))
  sheet : List JVal → Except (List Char) Unit

/-- Model of the goroutine body for task `idx`: Phase 1 (generate), Phase 2
(parser), Phase 3 (clean and decode JSON), Phase 4 (row assembly), Phase 5
(sheet append).  Returns the external calls issued and `some entry` when
the task appends an error to `resultDetails` (having returned early), or
`none` when it increments `successCount`. -/
def runTask (req : FactoryRequest) (headers : List JVal) (idx : Nat)
    (env : TaskEnv) : List Event × Option ErrEntry :=
  match env.gen with
  | .error e => ([.genEv], some ⟨idx, .genStage, e⟩)
  | .ok genResult =>
    match env.parse (buildParserPrompt req.userPromptParser genResult) with
    | .error e => ([.genEv, .parseEv], some ⟨idx, .parseStage, e⟩)
    | .ok parsedRawStr =>
      match env.jsonDecode (cleanMarkdownJSON parsedRawStr) with
      | .error e => ([.genEv, .parseEv], some ⟨idx, .jsonStage, e⟩)
      | .ok dataMap =>
        match env.sheet (buildRow headers dataMap) with
        | .error e => ([.genEv, .parseEv, .sheetEv], some ⟨idx, .sheetStage, e⟩)
        | .ok _ => ([.genEv, .parseEv, .sheetEv], none)

/-- The error entry task `i` contributes, if any. -/
def errOf (req : FactoryRequest) (headers : List JVal) (envs : Nat → TaskEnv)
    (i : Nat) : Option ErrEntry :=
  (runTask req headers i (envs i)).2

/-- Whether task `i` fails (records an error entry instead of a success). -/
def taskFails (req : FactoryRequest) (headers : List JVal) (envs : Nat → TaskEnv)
    (i : Nat) : Bool :=
  (errOf req headers envs i).isSome

/-- The response struct of the handler (`FactoryResponse`): its JSON body
carries `total_processed`, `success_count` and `errors` — and nothing
else. -/
structure FactoryResponseM where
  totalProcessed : Nat
  successCount : Nat
  errors : List ErrEntry
deriving DecidableEq

/-- The JSON field names of `FactoryResponse`, from its struct tags. -/
def factoryResponseFields : List (List Char) :=
  [str "total_processed", str "success_count", str "errors"]

/-- Aggregation step: when a completed task recorded no error the shared
`successCount` is incremented, otherwise its entry is appended to the
shared `resultDetails` — both under the single mutex. -/
def aggStep (req : FactoryRequest) (headers : List JVal) (envs : Nat → TaskEnv)
    (acc : Nat × List ErrEntry) (i : Nat) : Nat × List ErrEntry :=
  match errOf req headers envs i with
  | none => (acc.1 + 1, acc.2)
  | some e => (acc.1, acc.2 ++ [e])

/-- Model of the fan-out orchestration: the handler spawns one goroutine
per persona prompt and joins them all (`wg.Wait()`); tasks complete in an
arbitrary interleaving, modelled by the completion order `order` (a
permutation of the task indices); the shared counters are updated under
one mutex, giving the fold below over the completion order. -/
def runAllPerm (req : FactoryRequest) (headers : List JVal) (envs : Nat → TaskEnv)
    (order : List Nat) : FactoryResponseM :=
  let r := order.foldl (aggStep req headers envs) (0, [])
  ⟨req.systemPromptFactory.length, r.1, r.2⟩

theorem aggStep_foldl (req : FactoryRequest) (headers : List JVal)
    (envs : Nat → TaskEnv) :
    ∀ (order : List Nat) (sc : Nat) (errs : List ErrEntry),
      order.foldl (aggStep req headers envs) (sc, errs) =
        (sc + order.countP (fun i => (errOf req headers envs i).isNone),
         errs ++ order.filterMap (errOf req headers envs)) := by
  intro order
  induction order with
  | nil =>
    intro sc errs
    simp
  | cons i rest ih =>
    intro sc errs
    cases h : errOf req headers envs i with
    | none =>
      simp [List.foldl_cons, aggStep, h, ih, List.countP_cons, List.filterMap_cons,
        Nat.add_assoc, Nat.add_comm 1]
    | some e =>
      simp [List.foldl_cons, aggStep, h, ih, List.countP_cons, List.filterMap_cons]

theorem errOf_idx (req : FactoryRequest) (headers : List JVal) (envs : Nat → TaskEnv)
    (i : Nat) (e : ErrEntry) (h : errOf req headers envs i = some e) : e.idx = i := by
  unfold errOf runTask at h
  cases hg : (envs i).gen with
  | error m =>
    simp only [hg] at h
    cases h
    rfl
  | ok genResult =>
    simp only [hg] at h
    cases hp : (envs i).parse (buildParserPrompt req.userPromptParser genResult) with
    | error m =>
      simp only [hp] at h
      cases h
      rfl
    | ok parsedRawStr =>
      simp only [hp] at h
      cases hj : (envs i).jsonDecode (cleanMarkdownJSON parsedRawStr) with
      | error m =>
        simp only [hj] at h
        cases h
        rfl
      | ok dataMap =>
        simp only [hj] at h
        cases hs : (envs i).sheet (buildRow headers dataMap) with
        | error m =>
          simp only [hs] at h
          cases h
          rfl
        | ok u =>
          simp only [hs] at h
          cases h

theorem length_filterMap_eq_countP {α β : Type} (f : α → Option β) :
    ∀ l : List α, (l.filterMap f).length = l.countP (fun a => (f a).isSome) := by
  intro l
  induction l with
  | nil => rfl
  | cons a rest ih =>
    cases h : f a with
    | none => simp [List.filterMap_cons, h, List.countP_cons, ih]
    | some b => simp [List.filterMap_cons, h, List.countP_cons, ih]

theorem countP_isNone_add_isSome {α β : Type} (f : α → Option β) :
    ∀ l : List α,
      l.countP (fun a => (f a).isNone) + l.countP (fun a => (f a).isSome) = l.length := by
  intro l
  induction l with
  | nil => rfl
  | cons a rest ih =>
    cases h : f a with
    | none => simp [List.countP_cons, h]; omega
    | some b => simp [List.countP_cons, h]; omega

theorem filter_eq_replicate_count (i : Nat) :
    ∀ l : List Nat, l.filter (fun j => j = i) = List.replicate (l.count i) i := by
  intro l
  induction l with
  | nil => rfl
  | cons j rest ih =>
    by_cases hj : j = i
    · subst hj
      simp [List.filter_cons, List.count_cons, ih, List.replicate_succ]
    · simp [List.filter_cons, List.count_cons, hj, ih, Ne.symm hj]

theorem filterMap_errOf_filter (req : FactoryRequest) (headers : List JVal)
    (envs : Nat → TaskEnv) (i : Nat) :
    ∀ order : List Nat,
      (order.filterMap (errOf req headers envs)).filter (fun e => e.idx = i) =
        (order.filter (fun j => j = i)).filterMap (errOf req headers envs) := by
  intro order
  induction order with
  | nil => rfl
  | cons j rest ih =>
    by_cases hj : j = i
    · subst hj
      cases h : errOf req headers envs j with
      | none => simp [List.filterMap_cons, h, List.filter_cons, ih]
      | some e =>
        have he : e.idx = j := errOf_idx req headers envs j e h
        simp [List.filterMap_cons, h, List.filter_cons, he, ih]
    · cases h : errOf req headers envs j with
      | none => simp [List.filterMap_cons, h, List.filter_cons, hj, ih]
      | some e =>
        have he : e.idx = j := errOf_idx req headers envs j e h
        simp [List.filterMap_cons, h, List.filter_cons, he, hj, ih]

/-- Claim C6: a task whose Stage-A (generate) call fails never issues the
Stage-B (parse) call, and the recorded entry carries the task's index and
the generate-stage tag (`"Task %d Gen Error"`), never the parse-stage
tag. -/
theorem c6_gen_failure_skips_parse (req : FactoryRequest) (headers : List JVal)
    (idx : Nat) (env : TaskEnv) (e : List Char) (h : env.gen = Except.error e) :
    runTask req headers idx env = ([Event.genEv], some ⟨idx, Stage.genStage, e⟩) ∧
    Event.parseEv ∉ (runTask req headers idx env).1 := by
  have h1 : runTask req headers idx env = ([Event.genEv], some ⟨idx, Stage.genStage, e⟩) := by
    unfold runTask
    simp only [h]
  refine ⟨h1, ?_⟩
  rw [h1]
  simp

/-- An environment whose Stage-A call fails. -/
def envFailGen : TaskEnv :=
  { gen := Except.error (str "boom")
    parse := fun _ => Except.ok []
    jsonDecode := fun _ => Except.ok []
    sheet := fun _ => Except.ok () }

/-- An environment in which every external call succeeds. -/
def envOk : TaskEnv :=
  { gen := Except.ok (str "g")
    parse := fun _ => Except.ok (str "r")
    jsonDecode := fun _ => Except.ok []
    sheet := fun _ => Except.ok () }

/-- Witness for C6 at a concrete failing environment. -/
theorem c6_witness :
    runTask reqPool [] 0 envFailGen =
      ([Event.genEv], some ⟨0, Stage.genStage, str "boom"⟩) ∧
    Event.parseEv ∉ (runTask reqPool [] 0 envFailGen).1 :=
  c6_gen_failure_skips_parse reqPool [] 0 envFailGen (str "boom") rfl

/-- Claim C7: with tasks completing in any order, every task is accounted
for — `success_count` equals the number of non-errored tasks, successes and
error entries partition the batch, and each failing task contributes
exactly one entry tagged with its own index — so the caller receives a
best-effort batch result rather than an all-or-nothing failure. -/
theorem c7_best_effort (req : FactoryRequest) (headers : List JVal)
    (envs : Nat → TaskEnv) (order : List Nat)
    (hperm : order.Perm (List.range req.systemPromptFactory.length)) :
    (runAllPerm req headers envs order).totalProcessed = req.systemPromptFactory.length ∧
    (runAllPerm req headers envs order).successCount =
      ((List.range req.systemPromptFactory.length).filter
        (fun i => (errOf req headers envs i).isNone)).length ∧
    (runAllPerm req headers envs order).successCount +
        (runAllPerm req headers envs order).errors.length =
      req.systemPromptFactory.length ∧
    ∀ i, i < req.systemPromptFactory.length → taskFails req headers envs i = true →
      ((runAllPerm req headers envs order).errors.filter (fun e => e.idx = i)).length = 1 := by
  have hfold : runAllPerm req headers envs order =
      ⟨req.systemPromptFactory.length,
       order.countP (fun i => (errOf req headers envs i).isNone),
       order.filterMap (errOf req headers envs)⟩ := by
    unfold runAllPerm
    rw [aggStep_foldl req headers envs order 0 []]
    simp
  refine ⟨by rw [hfold], ?_, ?_, ?_⟩
  · rw [hfold]
    rw [hperm.countP_eq, List.countP_eq_length_filter]
  · rw [hfold]
    simp only
    rw [length_filterMap_eq_countP, countP_isNone_add_isSome, hperm.length_eq,
      List.length_range]
  · intro i hi hfail
    rw [hfold]
    simp only
    rw [filterMap_errOf_filter, filter_eq_replicate_count]
    have hcount : order.count i = 1 := by
      rw [hperm.count_eq]
      exact List.count_eq_one_of_mem (List.nodup_range _) (List.mem_range.mpr hi)
    rw [hcount]
    obtain ⟨e, he⟩ := Option.isSome_iff_exists.mp hfail
    simp [List.replicate_succ, List.filterMap_cons, he]

/-- A two-task request for the C7 witness. -/
def reqTwo : FactoryRequest :=
  { systemPromptFactory := [str "a", str "b"]
    userPromptFactory := str "u"
    userPromptParser := str "q"
    systemPromptParser := str "s"
    formText := []
    geminiAPIKey := str "k"
    spreadsheetID := str "sheet"
    model := str "m" }

/-- Environments in which task 0 fails at Stage A and every other task
succeeds end-to-end. -/
def envsTwo : Nat → TaskEnv := fun i => if i = 0 then envFailGen else envOk

/-- Witness for C7: two tasks, task 0 failing, task 1 succeeding. -/
theorem c7_witness :
    (runAllPerm reqTwo [] envsTwo (List.range 2)).successCount =
      ((List.range 2).filter (fun i => (errOf reqTwo [] envsTwo i).isNone)).length ∧
    ((runAllPerm reqTwo [] envsTwo (List.range 2)).errors.filter
        (fun e => e.idx = 0)).length = 1 :=
  ⟨(c7_best_effort reqTwo [] envsTwo (List.range 2) (List.Perm.refl _)).2.1,
   (c7_best_effort reqTwo [] envsTwo (List.range 2) (List.Perm.refl _)).2.2.2 0
     (by decide) (by decide)⟩

/-- Counterexample to claim C2: the handler's response type
(`FactoryResponse`) has no `results` field at all — its JSON body carries
only `total_processed`, `success_count` and `errors` — so no response
contains a `results` sequence with `results[i]` the output of the i-th
persona.  Successful outputs are appended to the spreadsheet, not
returned. -/
theorem c2_counterexample : str "results" ∉ factoryResponseFields := by
  decide

/-- Claim C2 (amended): for every request the response reports
`total_processed` equal to the number of persona prompts, but it contains
no per-index `results` sequence — the response fields are exactly
`total_processed`, `success_count` and `errors`, and per-task outputs are
written to the spreadsheet instead of being returned. -/
theorem c2_response_shape (req : FactoryRequest) (headers : List JVal)
    (envs : Nat → TaskEnv) (order : List Nat) :
    (runAllPerm req headers envs order).totalProcessed =
      req.systemPromptFactory.length ∧
    str "results" ∉ factoryResponseFields ∧
    factoryResponseFields =
      [str "total_processed", str "success_count", str "errors"] :=
  ⟨rfl, by decide, rfl⟩

/-! ## Form structure scraper
(`api/v1/form-scrapper.go`, question-list walk of `scrapeGoogleForm`) -/

/-- One recovered question (`QuestionItem` in the Go source; entry
identifiers are `int64`). -/
structure QuestionItem where
  id : Int
  text : List Char
  options : List (List Char)
deriving DecidableEq

/-- What one iteration of the question-list loop does with an item: skip it
(`continue` on a malformed shape), treat it as a type-8 section break, or
emit a question. -/
inductive ItemAction
  | skip
  | sectionBreak
  | question (q : QuestionItem)
deriving DecidableEq

/-- Per-item logic of the question-list loop, translated clause by clause:
non-arrays and arrays shorter than 4 are skipped; type code 8 (read from
`qArray[3]`, defaulting to 0 when not a number) is a section break; other
items yield a question when `qArray[4][0][0]` is numeric, with the label
from `qArray[1]` (empty when not a string) and option labels from the first
elements of `qArray[4][0][1]`'s sub-arrays. -/
def classifyItem (item : JVal) : ItemAction :=
  match item.asArr with
  | none => .skip
  | some qArray =>
    if qArray.length < 4 then .skip
    else if ((qArray.getD 3 JVal.null).asNum).getD 0 = 8 then .sectionBreak
    else if qArray.length < 5 then .skip
    else
      match (qArray.getD 4 JVal.null).asArr with
      | none => .skip
      | some [] => .skip
      | some (d0 :: _) =>
        match d0.asArr with
        | none => .skip
        | some [] => .skip
        | some (x0 :: detailRest) =>
          match x0.asNum with
          | none => .skip
          | some idN =>
            let qText := ((qArray.getD 1 JVal.null).asStr).getD []
            let options :=
              match detailRest with
              | [] => []
              | o1 :: _ =>
                match o1.asArr with
                | none => []
                | some optsRaw =>
                  optsRaw.filterMap (fun o =>
                    match o.asArr with
                    | some (optFirst :: _) => optFirst.asStr
                    | _ => none)
            .question ⟨idN, qText, options⟩

/-- The loop state: emitted questions, their identifiers, the
label→identifier assignments (in assignment order; `lookupLast` gives the
Go-map reading), and the running page counter. -/
structure ScrapeAcc where
  questions : List QuestionItem
  entryIDs : List Int
  entryMappings : List (List Char × Int)
  pageCount : Nat
deriving DecidableEq

/-- One iteration of the question-list loop. -/
def scrapeStep (acc : ScrapeAcc) (item : JVal) : ScrapeAcc :=
  match classifyItem item with
  | .skip => acc
  | .sectionBreak => { acc with pageCount := acc.pageCount + 1 }
  | .question q =>
    { acc with
      questions := acc.questions ++ [q]
      entryIDs := acc.entryIDs ++ [q.id]
      entryMappings :=
        if q.text ≠ [] then acc.entryMappings ++ [(q.text, q.id)]
        else acc.entryMappings }

/-- The whole question-list walk of `scrapeGoogleForm`. -/
def scrapeQuestions (rawQuestions : List JVal) : ScrapeAcc :=
  rawQuestions.foldl scrapeStep ⟨[], [], [], 0⟩

/-- Whether an item is a type-8 section break. -/
def isBreakItem (item : JVal) : Bool :=
  match classifyItem item with
  | .sectionBreak => true
  | _ => false

/-- The question an item emits, if any. -/
def questionOf (item : JVal) : Option QuestionItem :=
  match classifyItem item with
  | .question q => some q
  | _ => none

/-- The synthesized page-history string: `strconv.Itoa i` for
`i = 0 .. pageCount`, joined with commas. -/
def pageHistoryL (pageCount : Nat) : List Char :=
  joinWith ',' ((List.range (pageCount + 1)).map natStr)

theorem scrape_foldl_pageCount :
    ∀ (raw : List JVal) (acc : ScrapeAcc),
      (raw.foldl scrapeStep acc).pageCount = acc.pageCount + raw.countP isBreakItem := by
  intro raw
  induction raw with
  | nil =>
    intro acc
    simp
  | cons item rest ih =>
    intro acc
    rw [List.foldl_cons, List.countP_cons, ih]
    cases hc : classifyItem item <;>
      simp [scrapeStep, hc, isBreakItem, Nat.add_assoc, Nat.add_comm 1]

theorem scrape_foldl_questions :
    ∀ (raw : List JVal) (acc : ScrapeAcc),
      (raw.foldl scrapeStep acc).questions = acc.questions ++ raw.filterMap questionOf := by
  intro raw
  induction raw with
  | nil =>
    intro acc
    simp
  | cons item rest ih =>
    intro acc
    rw [List.foldl_cons, List.filterMap_cons]
    cases hc : classifyItem item <;> simp [scrapeStep, hc, questionOf, ih]

/-- The label→identifier assignment a question causes, if any (only
non-empty labels are recorded). -/
def bindingOf (q : QuestionItem) : Option (List Char × Int) :=
  if q.text ≠ [] then some (q.text, q.id) else none

theorem scrape_foldl_mappings :
    ∀ (raw : List JVal) (acc : ScrapeAcc),
      (raw.foldl scrapeStep acc).entryMappings =
        acc.entryMappings ++ (raw.filterMap questionOf).filterMap bindingOf := by
  intro raw
  induction raw with
  | nil =>
    intro acc
    simp
  | cons item rest ih =>
    intro acc
    rw [List.foldl_cons, List.filterMap_cons]
    cases hc : classifyItem item with
    | skip => simp [scrapeStep, hc, questionOf, ih]
    | sectionBreak => simp [scrapeStep, hc, questionOf, ih]
    | question q =>
      by_cases ht : q.text = []
      · simp [scrapeStep, hc, questionOf, ih, List.filterMap_cons, bindingOf, ht]
      · simp [scrapeStep, hc, questionOf, ih, List.filterMap_cons, bindingOf, ht]

theorem splitOnChar_ne_nil (d : Char) : ∀ s : List Char, splitOnChar d s ≠ [] := by
  intro s
  induction s with
  | nil => simp [splitOnChar]
  | cons c rest ih =>
    by_cases hc : c = d
    · simp [splitOnChar, hc]
    · simp only [splitOnChar, hc, if_false]
      cases h : splitOnChar d rest with
      | nil => exact absurd h ih
      | cons x t => simp

theorem splitOnChar_no_sep (d : Char) :
    ∀ s : List Char, d ∉ s → splitOnChar d s = [s] := by
  intro s
  induction s with
  | nil =>
    intro _
    rfl
  | cons c rest ih =>
    intro h
    have hc : ¬(c = d) := fun he => h (he ▸ List.mem_cons_self c rest)
    have hrest : d ∉ rest := fun hm => h (List.mem_cons_of_mem c hm)
    simp only [splitOnChar, hc, if_false, ih hrest]

theorem splitOnChar_append_sep (d : Char) :
    ∀ (x ys : List Char), d ∉ x →
      splitOnChar d (x ++ d :: ys) = x :: splitOnChar d ys := by
  intro x
  induction x with
  | nil =>
    intro ys _
    simp [splitOnChar]
  | cons c rest ih =>
    intro ys h
    have hc : ¬(c = d) := fun he => h (he ▸ List.mem_cons_self c rest)
    have hrest : d ∉ rest := fun hm => h (List.mem_cons_of_mem c hm)
    have hr := ih ys hrest
    simp only [List.cons_append, splitOnChar, hc, if_false, List.append_eq, hr]

theorem splitOnChar_joinWith (d : Char) :
    ∀ xs : List (List Char), (∀ x ∈ xs, d ∉ x) → xs ≠ [] →
      splitOnChar d (joinWith d xs) = xs := by
  intro xs
  induction xs with
  | nil =>
    intro _ h
    exact absurd rfl h
  | cons x rest ih =>
    intro hmem _
    cases rest with
    | nil =>
      exact splitOnChar_no_sep d x (hmem x (List.mem_cons_self x []))
    | cons y t =>
      have hx : d ∉ x := hmem x (List.mem_cons_self x (y :: t))
      have hrest : ∀ z ∈ y :: t, d ∉ z := fun z hz => hmem z (List.mem_cons_of_mem x hz)
      rw [joinWith, splitOnChar_append_sep d x (joinWith d (y :: t)) hx,
        ih hrest (by simp)]

theorem digitsGo_no_comma :
    ∀ (fuel n : Nat), ',' ∉ digitsGo fuel n := by
  intro fuel
  induction fuel with
  | zero =>
    intro n
    simp [digitsGo]
  | succ f ih =>
    intro n
    by_cases h : n < 10
    · intro hmem
      have hd : ∀ m, m < 10 → Nat.digitChar m ≠ ',' := by decide
      simp only [digitsGo, h, if_true, List.mem_singleton] at hmem
      exact hd n h hmem.symm
    · intro hmem
      simp only [digitsGo, h, if_false, List.mem_append, List.mem_singleton] at hmem
      rcases hmem with hin | he
      · exact ih (n / 10) hin
      · have hlt : n % 10 < 10 := Nat.mod_lt n (by omega)
        have hall : ∀ m, m < 10 → Nat.digitChar m ≠ ',' := by decide
        exact hall _ hlt he.symm

theorem natStr_no_comma (n : Nat) : ',' ∉ natStr n :=
  digitsGo_no_comma (n + 1) n

theorem breaks_emit_no_question :
    ∀ raw : List JVal, (raw.filter isBreakItem).filterMap questionOf = [] := by
  intro raw
  induction raw with
  | nil => rfl
  | cons item rest ih =>
    rw [List.filter_cons]
    cases hc : classifyItem item <;>
      simp [isBreakItem, hc, questionOf, ih, List.filterMap_cons]

/-- Claim C8: in the question-list walk, every type-8 section-break entry
increments the page counter and emits no question record (questions come
only from the per-item extraction, which yields nothing for a break), and
the synthesized page-history string splits on commas into exactly
`pageCount+1` ascending decimal integers starting at 0. -/
theorem c8_section_breaks_and_page_history (rawQuestions : List JVal) :
    (scrapeQuestions rawQuestions).pageCount = rawQuestions.countP isBreakItem ∧
    (scrapeQuestions rawQuestions).questions = rawQuestions.filterMap questionOf ∧
    (rawQuestions.filter isBreakItem).filterMap questionOf = [] ∧
    splitOnChar ',' (pageHistoryL (scrapeQuestions rawQuestions).pageCount) =
      (List.range ((scrapeQuestions rawQuestions).pageCount + 1)).map natStr := by
  refine ⟨?_, ?_, breaks_emit_no_question rawQuestions, ?_⟩
  · unfold scrapeQuestions
    rw [scrape_foldl_pageCount]
    simp
  · unfold scrapeQuestions
    rw [scrape_foldl_questions]
    rfl
  · unfold pageHistoryL
    apply splitOnChar_joinWith
    · intro x hx
      obtain ⟨n, -, hn⟩ := List.mem_map.mp hx
      rw [← hn]
      exact natStr_no_comma n
    · intro h
      have := congrArg List.length h
      simp at this

theorem getLast?_map_comm {α β : Type} (f : α → β) :
    ∀ l : List α, (l.map f).getLast? = l.getLast?.map f := by
  intro l
  induction l with
  | nil => rfl
  | cons a rest ih =>
    cases rest with
    | nil => rfl
    | cons b t =>
      rw [List.map_cons, List.map_cons, List.getLast?_cons_cons, ← List.map_cons, ih,
        List.getLast?_cons_cons]

theorem filter_filterMap_bindingOf (t : List Char) (ht : t ≠ []) :
    ∀ qs : List QuestionItem,
      (qs.filterMap bindingOf).filter (fun p => p.1 = t) =
        (qs.filter (fun q => q.text = t)).map (fun q => (q.text, q.id)) := by
  intro qs
  induction qs with
  | nil => rfl
  | cons q rest ih =>
    rw [List.filterMap_cons, List.filter_cons]
    by_cases hqt : q.text = t
    · simp [bindingOf, List.filter_cons, hqt, ht, ih]
    · by_cases hempty : q.text = []
      · simp [bindingOf, hempty, hqt, ht, ih]
      · simp [bindingOf, hempty, hqt, ht, ih]

/-- Claim C9: for every question the scraper produces whose label is
non-empty, looking the label up in the label→identifier map yields the
identifier of the last produced question carrying that label (later
questions win on duplicate labels), and in particular the lookup succeeds. -/
theorem c9_label_map_round_trip (rawQuestions : List JVal) (q : QuestionItem)
    (hq : q ∈ (scrapeQuestions rawQuestions).questions) (ht : q.text ≠ []) :
    lookupLast (scrapeQuestions rawQuestions).entryMappings q.text =
      (((scrapeQuestions rawQuestions).questions.filter
          (fun r => r.text = q.text)).getLast?).map QuestionItem.id ∧
    (lookupLast (scrapeQuestions rawQuestions).entryMappings q.text).isSome = true := by
  have hmap : (scrapeQuestions rawQuestions).entryMappings =
      ((scrapeQuestions rawQuestions).questions).filterMap bindingOf := by
    unfold scrapeQuestions
    rw [scrape_foldl_mappings, scrape_foldl_questions]
    rfl
  have hmain : lookupLast (scrapeQuestions rawQuestions).entryMappings q.text =
      (((scrapeQuestions rawQuestions).questions.filter
          (fun r => r.text = q.text)).getLast?).map QuestionItem.id := by
    rw [hmap]
    unfold lookupLast
    rw [filter_filterMap_bindingOf q.text ht, getLast?_map_comm, Option.map_map]
    rfl
  refine ⟨hmain, ?_⟩
  rw [hmain]
  have hqmem : q ∈ (scrapeQuestions rawQuestions).questions.filter
      (fun r => r.text = q.text) :=
    List.mem_filter.mpr ⟨hq, by simp⟩
  have hne : (scrapeQuestions rawQuestions).questions.filter
      (fun r => r.text = q.text) ≠ [] := List.ne_nil_of_mem hqmem
  rw [Option.isSome_map']
  rw [List.getLast?_isSome]
  exact hne

/-- A raw question entry with identifier `id` and label `label`, in the
nested-array shape the scraper walks. -/
def qItem (id : Int) (label : List Char) : JVal :=
  JVal.arr [JVal.null, JVal.s label, JVal.null, JVal.num 4,
    JVal.arr [JVal.arr [JVal.num id]]]

/-- A question list with two questions sharing the label "dup", separated
by a type-8 section break. -/
def rawQEx : List JVal :=
  [qItem 111 (str "dup"),
   JVal.arr [JVal.null, JVal.null, JVal.null, JVal.num 8],
   qItem 222 (str "dup")]

/-- Witness for C9 at a concrete scrape with duplicate labels: the lookup
for "dup" resolves to the later question's identifier. -/
theorem c9_witness :
    lookupLast (scrapeQuestions rawQEx).entryMappings (str "dup") =
      (((scrapeQuestions rawQEx).questions.filter
          (fun r => r.text = str "dup")).getLast?).map QuestionItem.id ∧
    (lookupLast (scrapeQuestions rawQEx).entryMappings (str "dup")).isSome = true :=
  c9_label_map_round_trip rawQEx ⟨111, str "dup", []⟩ (by decide) (by decide)

end DataFact
